import Mathlib

/-!
Verification of the Agent Enrollment & Fleet State Engine of the
xdr-manager plugin.  The definitions below are a shallow embedding of the
server route handlers (`defineRoutes`): the module-level mutable
collections (`policies`, `enrollmentTokens`) and the saved-objects agent
repository become an explicit `SystemState` record, each route handler
becomes a pure function from a state (plus its request payload and the
current time) to a result and a successor state.  Timestamps are modelled
as integer milliseconds since the epoch: `new Date().toISOString()` /
`Date.now()` become an explicit `now : Int` parameter, and a stored
`lastSeen` string is modelled as `Option Int` (`some ms` for a string
`Date.parse` accepts, `none` for one it rejects).
-/

namespace XdrManager

inductive AgentStatus where
  | healthy
  | degraded
  | offline
  | unseen
deriving DecidableEq, Repr

inductive XdrAction where
  | restart
  | isolate
  | upgrade
deriving DecidableEq, Repr

inductive PolicyLogLevel where
  | minimal
  | standard
  | verbose
deriving DecidableEq, Repr

structure XdrPolicy where
  id : String
  name : String
  description : String
  malwareProtection : Bool
  fileIntegrityMonitoring : Bool
  autoUpgrade : Bool
  osqueryEnabled : Bool
  logLevel : PolicyLogLevel
deriving DecidableEq, Repr

/-- Attributes of an agent saved object (`XdrAgentAttributes = Omit<XdrAgent, 'id'>`). -/
structure XdrAgentAttributes where
  name : String
  policyId : String
  status : AgentStatus
  lastSeen : Option Int
  tags : List String
  version : String
deriving DecidableEq, Repr

/-- A saved object of type `xdr-agent`: a document id plus attributes. -/
structure SavedAgent where
  id : String
  attributes : XdrAgentAttributes
deriving DecidableEq, Repr

structure XdrAgent where
  id : String
  name : String
  policyId : String
  status : AgentStatus
  lastSeen : Option Int
  tags : List String
  version : String
deriving DecidableEq, Repr

/-- `toXdrAgent`: flatten a saved object into the wire-level agent shape. -/
def toXdrAgent (so : SavedAgent) : XdrAgent :=
  ⟨so.id, so.attributes.name, so.attributes.policyId, so.attributes.status,
    so.attributes.lastSeen, so.attributes.tags, so.attributes.version⟩

structure EnrollmentTokenRecord where
  token : String
  policyId : String
  createdAt : Int
  consumedAt : Option Int
  consumedAgentId : Option String
  consumedHostname : Option String
deriving DecidableEq, Repr

/-- The whole mutable state touched by the routes: the module-level
`policies` array, the module-level `enrollmentTokens` array, and the
contents of the saved-objects repository for the `xdr-agent` type. -/
structure SystemState where
  policies : List XdrPolicy
  enrollmentTokens : List EnrollmentTokenRecord
  agents : List SavedAgent
deriving DecidableEq, Repr

/-- The two statically initialised entries of the `policies` array. -/
def policiesInit : List XdrPolicy :=
  [⟨"default-endpoint", "Default Endpoint Policy",
      "Baseline telemetry and malware prevention.",
      true, true, false, false, .standard⟩,
   ⟨"high-security-linux", "High Security Linux",
      "Hardening profile for production Linux workloads.",
      true, true, true, true, .verbose⟩]

def STALE_AGENT_THRESHOLD_MS : Int := 5 * 60 * 1000

def isUnknownUnseenPlaceholder (agent : XdrAgent) : Bool :=
  agent.status == .unseen && (agent.name == "unknown" || agent.name == "localhost")

/-- `deriveAgentStatus`: `unseen` is reported as-is; otherwise, when the
stored `lastSeen` parses to a finite time that is at least the stale
threshold in the past, the derived status is `offline`; otherwise the raw
status is reported. -/
def deriveAgentStatus (agent : XdrAgent) (nowMs : Int) : AgentStatus :=
  if agent.status == .unseen then .unseen
  else
    match agent.lastSeen with
    | some lastSeenMs =>
        if nowMs - lastSeenMs ≥ STALE_AGENT_THRESHOLD_MS then .offline else agent.status
    | none => agent.status

/-- `version.split('.')` on the character list: split at every dot, keeping
empty pieces (so `""` yields one empty piece, `"1."` yields `["1", ""]`). -/
def splitOnDot : List Char → List (List Char)
  | [] => [[]]
  | c :: rest =>
      if c = '.' then [] :: splitOnDot rest
      else
        match splitOnDot rest with
        | piece :: pieces => (c :: piece) :: pieces
        | [] => [[c]]

def digitVal (c : Char) : Option Nat :=
  if 48 ≤ c.toNat && c.toNat ≤ 57 then some (c.toNat - 48) else none

def decimalValueGo : List Char → Nat → Option Nat
  | [], acc => some acc
  | c :: rest, acc =>
      match digitVal c with
      | some d => decimalValueGo rest (acc * 10 + d)
      | none => none

/-- Model of the JavaScript `Number(piece)` coercion as used on the pieces
of `version.split('.')`.  A piece never contains a dot, and the modelled
fragment covers the decimal numerals the version format deals in: the
empty string coerces to `0`, a string of decimal digits to its value, and
any other string to NaN (`none`).  (Exotic JS numerals - signs, exponents,
hex, whitespace - are outside the modelled fragment.) -/
def jsNumberOfVersionPart (piece : List Char) : Option Nat :=
  match piece with
  | [] => some 0
  | l => decimalValueGo l 0

/-- `bumpVersion`: split on dots and coerce each piece with `Number`; when
that does not yield exactly three numbers the fixed fallback `"1.0.1"` is
returned, otherwise the patch component is incremented and the pieces are
re-joined. -/
def bumpVersion (version : String) : String :=
  match (splitOnDot version.toList).mapM jsNumberOfVersionPart with
  | some [major, minor, patch] =>
      toString major ++ "." ++ toString minor ++ "." ++ toString (patch + 1)
  | _ => "1.0.1"

/-- A character the slug regex `[^a-z0-9]` keeps (after lowercasing). -/
def isSlugChar (c : Char) : Bool :=
  (97 ≤ c.toNat && c.toNat ≤ 122) || (48 ≤ c.toNat && c.toNat ≤ 57)

/-- Worker for the regex replacement `[^a-z0-9]+` → `-`: the flag records
whether the scan is inside a run of non-slug characters (for which a dash
has already been emitted). -/
def squashGo : Bool → List Char → List Char
  | _, [] => []
  | inRun, c :: rest =>
      if isSlugChar c then c :: squashGo false rest
      else if inRun then squashGo true rest
      else '-' :: squashGo true rest

/-- `.replace(/[^a-z0-9]+/g, '-')`: every maximal run of non-slug
characters collapses to a single dash. -/
def squashToDashes (l : List Char) : List Char := squashGo false l

/-- `.replace(/(^-|-$)/g, '')` on a dash-squashed string: one leading and
one trailing dash are removed. -/
def dropLeadingDash : List Char → List Char
  | '-' :: rest => rest
  | l => l

def dropTrailingDash (l : List Char) : List Char :=
  (dropLeadingDash l.reverse).reverse

/-- ASCII lowering, the fragment of `String.prototype.toLowerCase` the
catalog's policy names exercise. -/
def lowerAscii (c : Char) : Char :=
  if 65 ≤ c.toNat && c.toNat ≤ 90 then Char.ofNat (c.toNat + 32) else c

def isTrimmedSpace (c : Char) : Bool :=
  c == ' ' || c == '\t' || c == '\n' || c == '\r'

/-- `.trim()`: strip whitespace from both ends. -/
def trimChars (l : List Char) : List Char :=
  ((l.dropWhile isTrimmedSpace).reverse.dropWhile isTrimmedSpace).reverse

/-- `toPolicyId`: lowercase, trim, collapse non-alphanumeric runs to
dashes, strip edge dashes; an empty result falls back to
`policy-${Date.now()}`. -/
def toPolicyId (value : String) (now : Int) : String :=
  let normalized :=
    String.mk (dropTrailingDash (dropLeadingDash
      (squashToDashes (trimChars (value.toList.map lowerAscii)))))
  if normalized == "" then "policy-" ++ toString now else normalized

/-- The `while (policies.some(...))` disambiguation loop of the policy
create handler, with explicit fuel (the loop always terminates because the
catalog is finite and candidate ids are pairwise distinct). -/
def freshPolicyIdGo (policies : List XdrPolicy) (baseId : String) :
    Nat → String → Nat → String
  | 0, id, _ => id
  | Nat.succ fuel, id, count =>
      if policies.any (fun policy => policy.id == id) then
        freshPolicyIdGo policies baseId fuel
          (baseId ++ "-" ++ toString (count + 1)) (count + 1)
      else id

def freshPolicyId (policies : List XdrPolicy) (baseId : String) : String :=
  freshPolicyIdGo policies baseId (policies.length + 1) baseId 1

/-- `repo.get(type, id)`: resolve a saved object by id (`none` models the
404 outcome); first match wins, as with `Array.prototype.find`. -/
def repoGet : List SavedAgent → String → Option SavedAgent
  | [], _ => none
  | so :: rest, id => if so.id == id then some so else repoGet rest id

/-- `policies.find(p => p.id === pid)` used as an existence test. -/
def policyExists (policies : List XdrPolicy) (pid : String) : Bool :=
  policies.any (fun policy => policy.id == pid)

/-- A partial attributes object as passed to `repo.update`: present fields
overwrite, absent fields are preserved. -/
structure PartialAgentAttrs where
  name : Option String
  policyId : Option String
  status : Option AgentStatus
  lastSeen : Option (Option Int)
  tags : Option (List String)
  version : Option String
deriving DecidableEq, Repr

def applyPartial (p : PartialAgentAttrs) (a : XdrAgentAttributes) : XdrAgentAttributes :=
  ⟨p.name.getD a.name, p.policyId.getD a.policyId, p.status.getD a.status,
    p.lastSeen.getD a.lastSeen, p.tags.getD a.tags, p.version.getD a.version⟩

/-- A full attributes object viewed as a partial update (every field present). -/
def fullAttrs (a : XdrAgentAttributes) : PartialAgentAttrs :=
  ⟨some a.name, some a.policyId, some a.status, some a.lastSeen, some a.tags, some a.version⟩

/-- `repo.update(type, id, partialAttrs)`. -/
def repoUpdate (agents : List SavedAgent) (id : String) (p : PartialAgentAttrs) :
    List SavedAgent :=
  agents.map (fun so => if so.id == id then ⟨so.id, applyPartial p so.attributes⟩ else so)

/-- `repo.delete(type, id)`. -/
def repoDelete (agents : List SavedAgent) (id : String) : List SavedAgent :=
  agents.filter (fun so => so.id != id)

/-- `repo.create(type, attrs, { id })`.  The route handlers only create
under an id they have just observed to be absent (or a freshly minted
operator id), so conflict errors are not modelled. -/
def repoCreate (agents : List SavedAgent) (id : String) (attrs : XdrAgentAttributes) :
    List SavedAgent :=
  agents ++ [⟨id, attrs⟩]

/-! Request payloads (the validated bodies of the routes). -/

structure ControlPlaneEnrollRequest where
  agent_id : String
  machine_id : String
  hostname : String
  architecture : String
  os_type : String
  ip_addresses : List String
  policy_id : String
  tags : List String
  agent_version : String
deriving DecidableEq, Repr

structure ControlPlaneHeartbeatRequest where
  agent_id : String
  machine_id : String
  hostname : String
  policy_id : String
  tags : List String
  agent_version : String
deriving DecidableEq, Repr

structure EnrollAgentRequest where
  hostname : String
  policyId : String
  tags : Option (List String)
deriving DecidableEq, Repr

structure UpsertPolicyRequest where
  name : String
  description : String
  malwareProtection : Bool
  fileIntegrityMonitoring : Bool
  autoUpgrade : Bool
  osqueryEnabled : Bool
  logLevel : PolicyLogLevel
deriving DecidableEq, Repr

/-! Handler results.  Each HTTP error shape becomes a constructor. -/

inductive IssueTokenResult where
  | unknownPolicy
  | ok (token : String)
deriving DecidableEq, Repr

/-- POST `/api/xdr_manager/enrollment_tokens`.  The random
`issueEnrollmentToken()` string is an input `tok` here (randomness made an
explicit oracle); `unshift` prepends the new pending record. -/
def issueToken (st : SystemState) (policyId : String) (tok : String) (now : Int) :
    IssueTokenResult × SystemState :=
  if !policyExists st.policies policyId then
    (.unknownPolicy, st)
  else
    (.ok tok,
      { st with enrollmentTokens := ⟨tok, policyId, now, none, none, none⟩ :: st.enrollmentTokens })

/-- `enrollmentTokens.find(item => item.token === tok)`: first match wins. -/
def findTokenIn : List EnrollmentTokenRecord → String → Option EnrollmentTokenRecord
  | [], _ => none
  | r :: rest, tok => if r.token == tok then some r else findTokenIn rest tok

def findToken (st : SystemState) (tok : String) : Option EnrollmentTokenRecord :=
  findTokenIn st.enrollmentTokens tok

/-- The body of GET `/api/xdr_manager/enrollment_tokens/{token}/status`;
`consumed = true` exactly when `consumedAt` is set. -/
structure EnrollmentTokenStatusView where
  token : String
  policyId : String
  consumed : Bool
  createdAt : Int
  consumedAt : Option Int
  consumedAgentId : Option String
  consumedHostname : Option String
deriving DecidableEq, Repr

def getTokenStatus (st : SystemState) (tok : String) : Option EnrollmentTokenStatusView :=
  match findToken st tok with
  | none => none
  | some r =>
      some ⟨r.token, r.policyId, r.consumedAt.isSome, r.createdAt,
        r.consumedAt, r.consumedAgentId, r.consumedHostname⟩

inductive EnrollResult where
  | missingAuth
  | invalidToken
  | tokenAlreadyUsed
  | policyMismatch
  | unknownPolicy
  | ok (enrollmentId : String)
deriving DecidableEq, Repr

/-- Which awaited repository call of the enroll handler throws (a thrown
store error propagates out of the handler as a 5xx and skips everything
after the failing call).  `getFail` models a non-404 failure of the
initial `repo.get`. -/
structure FailSpec where
  getFail : Bool
  updateFail : Bool
  findFail : Bool
  deleteFail : Bool
  createFail : Bool
deriving DecidableEq, Repr

def noFail : FailSpec := ⟨false, false, false, false, false⟩

inductive EnrollOutcome where
  | storeFailure
  | res (r : EnrollResult)
deriving DecidableEq, Repr

/-- The synchronous validation prefix of the enroll handler (everything
before the first `await`): token lookup, consumed check, policy-binding
check, catalog check. -/
def enrollValidate (st : SystemState) (tok : String)
    (payload : ControlPlaneEnrollRequest) : Option EnrollResult :=
  match findToken st tok with
  | none => some .invalidToken
  | some tokenRecord =>
      if tokenRecord.consumedAt.isSome then some .tokenAlreadyUsed
      else if tokenRecord.policyId != payload.policy_id then some .policyMismatch
      else if !policyExists st.policies payload.policy_id then some .unknownPolicy
      else none

def enrollAttrs (payload : ControlPlaneEnrollRequest) (now : Int) : XdrAgentAttributes :=
  ⟨payload.hostname, payload.policy_id, .healthy, some now, payload.tags,
    payload.agent_version⟩

/-- The predicate of the placeholder search in the enroll handler. -/
def placeholderMatch (policyId : String) (so : SavedAgent) : Bool :=
  isUnknownUnseenPlaceholder (toXdrAgent so) && so.attributes.policyId == policyId

/-- `saved_objects.find(so => ...)` over the repository contents: the first
record satisfying the placeholder predicate. -/
def findPlaceholder : List SavedAgent → String → Option SavedAgent
  | [], _ => none
  | so :: rest, policyId =>
      if placeholderMatch policyId so then some so else findPlaceholder rest policyId

/-- The repository phase of the enroll handler (lines between the first
`await` and the response): in-place update of an existing record, or
placeholder promotion (delete stale placeholder, create under the live
id), or plain creation.  Returns `false` paired with the state as left
behind when the failing call throws. -/
def enrollAgentWrites (fail : FailSpec) (st : SystemState)
    (payload : ControlPlaneEnrollRequest) (now : Int) : Bool × SystemState :=
  let agentAttrs := enrollAttrs payload now
  if fail.getFail then (false, st)
  else
    match repoGet st.agents payload.agent_id with
    | some _ =>
        if fail.updateFail then (false, st)
        else (true, { st with agents := repoUpdate st.agents payload.agent_id (fullAttrs agentAttrs) })
    | none =>
        if fail.findFail then (false, st)
        else
          match findPlaceholder st.agents payload.policy_id with
          | some placeholder =>
              if fail.deleteFail then (false, st)
              else
                let st1 := { st with agents := repoDelete st.agents placeholder.id }
                if fail.createFail then (false, st1)
                else (true, { st1 with agents := repoCreate st1.agents payload.agent_id agentAttrs })
          | none =>
              if fail.createFail then (false, st)
              else (true, { st with agents := repoCreate st.agents payload.agent_id agentAttrs })

/-- Mutation of the found `tokenRecord` (a reference into the array): the
first record carrying the token gets its consumption fields set. -/
def markConsumed : List EnrollmentTokenRecord → String → Int → String → String →
    List EnrollmentTokenRecord
  | [], _, _, _, _ => []
  | r :: rest, tok, now, aId, host =>
      if r.token == tok then
        { r with
          consumedAt := some now
          consumedAgentId := some aId
          consumedHostname := some host } :: rest
      else r :: markConsumed rest tok now aId host

def consumeToken (st : SystemState) (tok : String)
    (payload : ControlPlaneEnrollRequest) (now : Int) : SystemState :=
  { st with enrollmentTokens :=
      markConsumed st.enrollmentTokens tok now payload.agent_id payload.hostname }

/-- POST `/api/v1/agents/enroll` with an explicit store-failure oracle.
The bearer token is the argument of `readBearerToken` already extracted
(`none` models a missing or malformed Authorization header).  Note the
order: the token is marked consumed only on the success path, after every
repository write. -/
def enrollF (fail : FailSpec) (st : SystemState) (bearer : Option String)
    (payload : ControlPlaneEnrollRequest) (now : Int) : EnrollOutcome × SystemState :=
  match bearer with
  | none => (.res .missingAuth, st)
  | some tok =>
      match enrollValidate st tok payload with
      | some e => (.res e, st)
      | none =>
          match enrollAgentWrites fail st payload now with
          | (false, st1) => (.storeFailure, st1)
          | (true, st1) => (.res (.ok payload.agent_id), consumeToken st1 tok payload now)

/-- The enroll handler with every repository call succeeding. -/
def enroll (st : SystemState) (bearer : Option String)
    (payload : ControlPlaneEnrollRequest) (now : Int) : EnrollOutcome × SystemState :=
  enrollF noFail st bearer payload now

inductive HeartbeatResult where
  | agentNotFound
  | ok
deriving DecidableEq, Repr

/-- POST `/api/v1/agents/heartbeat`: requires an existing record, then
overwrites hostname/policy/tags/version, forces `healthy`, refreshes
`lastSeen`.  (No token and no policy-catalog check are involved.) -/
def heartbeat (st : SystemState) (payload : ControlPlaneHeartbeatRequest) (now : Int) :
    HeartbeatResult × SystemState :=
  match repoGet st.agents payload.agent_id with
  | none => (.agentNotFound, st)
  | some _ =>
      let attrs : XdrAgentAttributes :=
        ⟨payload.hostname, payload.policy_id, .healthy, some now,
          payload.tags, payload.agent_version⟩
      (.ok, { st with agents := repoUpdate st.agents payload.agent_id (fullAttrs attrs) })

/-- The per-record transform of GET `/api/xdr_manager/agents`: hostname is
forced to the display sentinel for unseen records and the status runs
through `deriveAgentStatus`. -/
def listAgentsView (so : SavedAgent) (nowMs : Int) : XdrAgent :=
  let agent := toXdrAgent so
  { agent with
    name := if agent.status == .unseen then "unknown" else agent.name,
    status := deriveAgentStatus agent nowMs }

/-- GET `/api/xdr_manager/agents`.  The repository `find` is a read; the
handler performs no write, so the state component of the result is the
input state.  (The `sortField: lastSeen desc` of the query only permutes
the response order and is not modelled.) -/
def listAgents (st : SystemState) (nowMs : Int) :
    (List XdrAgent × List XdrPolicy) × SystemState :=
  ((st.agents.map (fun so => listAgentsView so nowMs), st.policies), st)

inductive CreatePlaceholderResult where
  | unknownPolicy
  | ok (agent : XdrAgent)
deriving DecidableEq, Repr

/-- POST `/api/xdr_manager/agents/enroll` (operator-initiated placeholder
creation): id `agent-${Date.now()}`, sentinel hostname `unknown`, status
`unseen`, version `1.0.0`. -/
def operatorEnroll (st : SystemState) (req : EnrollAgentRequest) (now : Int) :
    CreatePlaceholderResult × SystemState :=
  if !policyExists st.policies req.policyId then
    (.unknownPolicy, st)
  else
    let agentId := "agent-" ++ toString now
    let attrs : XdrAgentAttributes :=
      ⟨"unknown", req.policyId, .unseen, some now, req.tags.getD [], "1.0.0"⟩
    (.ok (toXdrAgent ⟨agentId, attrs⟩),
      { st with agents := repoCreate st.agents agentId attrs })

/-- POST `/api/xdr_manager/policies`: slug id with numeric disambiguation,
`unshift` onto the catalog. -/
def createPolicy (st : SystemState) (payload : UpsertPolicyRequest) (now : Int) :
    XdrPolicy × SystemState :=
  let baseId := toPolicyId payload.name now
  let id := freshPolicyId st.policies baseId
  let newPolicy : XdrPolicy :=
    ⟨id, payload.name, payload.description, payload.malwareProtection,
      payload.fileIntegrityMonitoring, payload.autoUpgrade, payload.osqueryEnabled,
      payload.logLevel⟩
  (newPolicy, { st with policies := newPolicy :: st.policies })

inductive UpdatePolicyResult where
  | notFound
  | ok
deriving DecidableEq, Repr

/-- The handler mutates the first catalog entry with the requested id. -/
def updateFirstPolicy : List XdrPolicy → String → UpsertPolicyRequest → List XdrPolicy
  | [], _, _ => []
  | p :: rest, id, payload =>
      if p.id == id then
        ⟨p.id, payload.name, payload.description, payload.malwareProtection,
          payload.fileIntegrityMonitoring, payload.autoUpgrade, payload.osqueryEnabled,
          payload.logLevel⟩ :: rest
      else p :: updateFirstPolicy rest id payload

/-- PUT `/api/xdr_manager/policies/{id}`. -/
def updatePolicy (st : SystemState) (id : String) (payload : UpsertPolicyRequest) :
    UpdatePolicyResult × SystemState :=
  if !policyExists st.policies id then (.notFound, st)
  else (.ok, { st with policies := updateFirstPolicy st.policies id payload })

inductive DeletePolicyResult where
  | notFound
  | policyInUse
  | deleted (id : String)
deriving DecidableEq, Repr

/-- `policies.splice(policyIndex, 1)`: remove the first entry with the id. -/
def removeFirstPolicy : List XdrPolicy → String → List XdrPolicy
  | [], _ => []
  | p :: rest, id => if p.id == id then rest else p :: removeFirstPolicy rest id

/-- DELETE `/api/xdr_manager/policies/{id}`: 404 when absent from the
catalog; otherwise the agent repository is scanned at delete time and the
delete is refused while any record references the policy. -/
def deletePolicy (st : SystemState) (id : String) : DeletePolicyResult × SystemState :=
  if !policyExists st.policies id then (.notFound, st)
  else if st.agents.any (fun so => so.attributes.policyId == id) then (.policyInUse, st)
  else (.deleted id, { st with policies := removeFirstPolicy st.policies id })

inductive RunActionResult where
  | agentNotFound
  | ok (agent : XdrAgent)
deriving DecidableEq, Repr

def actionToStatusMap : XdrAction → AgentStatus
  | .restart => .healthy
  | .isolate => .offline
  | .upgrade => .healthy

/-- POST `/api/xdr_manager/agents/{id}/action`: re-read the record, build
the partial update (status from the mapping table, fresh `lastSeen`, and
for `upgrade` a bumped version), write it, and answer with the
post-mutation record. -/
def runAction (st : SystemState) (id : String) (action : XdrAction) (now : Int) :
    RunActionResult × SystemState :=
  match repoGet st.agents id with
  | none => (.agentNotFound, st)
  | some existing =>
      let updates : PartialAgentAttrs :=
        ⟨none, none, some (actionToStatusMap action), some (some now), none,
          if action == .upgrade then some (bumpVersion existing.attributes.version) else none⟩
      let agent : XdrAgent := toXdrAgent ⟨existing.id, applyPartial updates existing.attributes⟩
      (.ok agent, { st with agents := repoUpdate st.agents id updates })

/-! A small-step trace language over the mutating routes, used to state
invariants that survive an arbitrary continuation of the system's
history. -/

inductive Op where
  | issueToken (policyId tok : String) (now : Int)
  | enroll (bearer : Option String) (payload : ControlPlaneEnrollRequest) (now : Int)
  | heartbeat (payload : ControlPlaneHeartbeatRequest) (now : Int)
  | operatorEnroll (req : EnrollAgentRequest) (now : Int)
  | runAction (id : String) (action : XdrAction) (now : Int)
  | createPolicy (payload : UpsertPolicyRequest) (now : Int)
  | updatePolicy (id : String) (payload : UpsertPolicyRequest)
  | deletePolicy (id : String)
deriving DecidableEq, Repr

def applyOp (st : SystemState) : Op → SystemState
  | .issueToken pid tok now => (issueToken st pid tok now).2
  | .enroll bearer payload now => (enroll st bearer payload now).2
  | .heartbeat payload now => (heartbeat st payload now).2
  | .operatorEnroll req now => (operatorEnroll st req now).2
  | .runAction id action now => (runAction st id action now).2
  | .createPolicy payload now => (createPolicy st payload now).2
  | .updatePolicy id payload => (updatePolicy st id payload).2
  | .deletePolicy id => (deletePolicy st id).2

def applyOps (st : SystemState) : List Op → SystemState
  | [] => st
  | op :: rest => applyOps (applyOp st op) rest

/-- Freshness of the randomness oracle: an issued token string never
collides with one already in the store (`issueEnrollmentToken` draws 24
random bytes). -/
def opFresh (st : SystemState) : Op → Bool
  | .issueToken _ tok _ => !(st.enrollmentTokens.any (fun r => r.token == tok))
  | _ => true

def opsFresh (st : SystemState) : List Op → Bool
  | [] => true
  | op :: rest => opFresh st op && opsFresh (applyOp st op) rest

/-- The first record carrying token `tok` is consumed, with the given
consumption fields. -/
def tokenConsumedWith (st : SystemState) (tok aId host : String) (t : Int) : Bool :=
  match findToken st tok with
  | some r =>
      r.consumedAt == some t && r.consumedAgentId == some aId &&
        r.consumedHostname == some host
  | none => false

/-- Every agent record references a policy present in the catalog. -/
def refIntegrity (st : SystemState) : Bool :=
  st.agents.all (fun so => st.policies.any (fun p => p.id == so.attributes.policyId))

/-! An interleaving semantics for two in-flight enroll requests.  The
enroll handler is synchronous from its entry to the first `await`
(`agentRepoPromise`), so its validation prefix is one atomic step; the
remainder (repository writes, token consumption, response) resumes later.
The scheduler below may run the two requests' steps in any order - exactly
what the Node event loop does with two overlapping HTTP requests. -/

structure EnrollCall where
  bearer : Option String
  payload : ControlPlaneEnrollRequest
  now : Int
deriving DecidableEq, Repr

inductive CallPhase where
  | ready
  | validated
  | responded (r : EnrollResult)
deriving DecidableEq, Repr

/-- One scheduler step of a single in-flight enroll call. -/
def stepEnrollCall (sys : SystemState) (call : EnrollCall) :
    CallPhase → CallPhase × SystemState
  | .ready =>
      match call.bearer with
      | none => (.responded .missingAuth, sys)
      | some tok =>
          match enrollValidate sys tok call.payload with
          | some e => (.responded e, sys)
          | none => (.validated, sys)
  | .validated =>
      match call.bearer with
      | none => (.responded .missingAuth, sys)
      | some tok =>
          let (_, sys1) := enrollAgentWrites noFail sys call.payload call.now
          (.responded (.ok call.payload.agent_id), consumeToken sys1 tok call.payload call.now)
  | .responded r => (.responded r, sys)

structure TwoEnrolls where
  sys : SystemState
  ph1 : CallPhase
  ph2 : CallPhase
deriving DecidableEq, Repr

def stepTwo (c1 c2 : EnrollCall) (ts : TwoEnrolls) (pick : Bool) : TwoEnrolls :=
  if pick then
    let (ph, sys) := stepEnrollCall ts.sys c2 ts.ph2
    ⟨sys, ts.ph1, ph⟩
  else
    let (ph, sys) := stepEnrollCall ts.sys c1 ts.ph1
    ⟨sys, ph, ts.ph2⟩

def runTwo (c1 c2 : EnrollCall) (sched : List Bool) (init : SystemState) : TwoEnrolls :=
  sched.foldl (stepTwo c1 c2) ⟨init, .ready, .ready⟩

/-! Concrete states and requests used to evaluate the theorems below on
closed inputs. -/

def cPayload1 : ControlPlaneEnrollRequest :=
  ⟨"A1", "m1", "h1", "x86_64", "linux", ["10.0.0.1"], "default-endpoint", [], "1.0.0"⟩

def cPayload2 : ControlPlaneEnrollRequest :=
  ⟨"A2", "m2", "h2", "x86_64", "linux", ["10.0.0.2"], "default-endpoint", [], "1.0.0"⟩

/-- An enroll payload declaring the other (perfectly valid) policy. -/
def cPayloadQ : ControlPlaneEnrollRequest :=
  ⟨"A1", "m1", "h1", "x86_64", "linux", ["10.0.0.1"], "high-security-linux", [], "1.0.0"⟩

def cTokenRec : EnrollmentTokenRecord := ⟨"T", "default-endpoint", 0, none, none, none⟩

/-- Initial catalog, one pending token, empty fleet. -/
def cSt : SystemState := ⟨policiesInit, [cTokenRec], []⟩

/-- The state `cSt` evolves to when `cPayload1` successfully enrolls with
token `T` at time 5. -/
def cSt1 : SystemState :=
  ⟨policiesInit,
   [⟨"T", "default-endpoint", 0, some 5, some "A1", some "h1"⟩],
   [⟨"A1", ⟨"h1", "default-endpoint", .healthy, some 5, [], "1.0.0"⟩⟩]⟩

def cOps : List Op :=
  [.issueToken "default-endpoint" "T2" 6,
   .heartbeat ⟨"A1", "m1", "h1", "default-endpoint", [], "1.0.1"⟩ 7]

def cCall1 : EnrollCall := ⟨some "T", cPayload1, 5⟩

def cCall2 : EnrollCall := ⟨some "T", cPayload2, 6⟩

/-- Pending token plus an operator-created `unknown` placeholder. -/
def cStPh : SystemState :=
  ⟨policiesInit, [cTokenRec],
   [⟨"ph-1", ⟨"unknown", "default-endpoint", .unseen, some 0, [], "1.0.0"⟩⟩]⟩

/-- Pending token plus an unseen record whose hostname is `localhost`. -/
def cStLh : SystemState :=
  ⟨policiesInit, [cTokenRec],
   [⟨"ph-2", ⟨"localhost", "default-endpoint", .unseen, some 0, [], "1.0.0"⟩⟩]⟩

/-- A healthy agent last seen at time 0 and a degraded agent whose stored
`lastSeen` does not parse. -/
def cSt6 : SystemState :=
  ⟨policiesInit, [],
   [⟨"A1", ⟨"h1", "default-endpoint", .healthy, some 0, [], "1.0.0"⟩⟩,
    ⟨"A2", ⟨"h2", "default-endpoint", .degraded, none, [], "1.0.0"⟩⟩]⟩

/-- One agent, at version `1.2.3`, referencing the default policy. -/
def cSt7 : SystemState :=
  ⟨policiesInit, [],
   [⟨"A1", ⟨"h1", "default-endpoint", .healthy, some 0, [], "1.2.3"⟩⟩]⟩

/-- A heartbeat declaring a policy id absent from the catalog. -/
def cHbGhost : ControlPlaneHeartbeatRequest := ⟨"A1", "m1", "h1", "ghost", [], "2.0.0"⟩

def cHbOk : ControlPlaneHeartbeatRequest :=
  ⟨"A1", "m1", "h1", "default-endpoint", [], "2.0.0"⟩

/-- An agent whose stored version is not a three-part dotted numeral. -/
def cSt8 : SystemState :=
  ⟨policiesInit, [],
   [⟨"A1", ⟨"h1", "default-endpoint", .healthy, some 0, [], "1.2.3"⟩⟩,
    ⟨"B1", ⟨"h2", "default-endpoint", .degraded, some 0, [], "abc"⟩⟩]⟩

/-! General lemmas about the repository and token-store primitives. -/

theorem repoGet_repoUpdate (l : List SavedAgent) (id : String) (p : PartialAgentAttrs)
    (so : SavedAgent) (h : repoGet l id = some so) :
    repoGet (repoUpdate l id p) id = some ⟨so.id, applyPartial p so.attributes⟩ := by
  induction l with
  | nil => simp [repoGet] at h
  | cons a rest ih =>
      by_cases ha : (a.id == id) = true
      · simp only [repoGet, if_pos ha] at h
        injection h with h
        subst h
        simp [repoUpdate, repoGet, ha]
      · simp only [repoGet, if_neg ha] at h
        simpa [repoUpdate, repoGet, ha] using ih h

theorem repoGet_none_forall (l : List SavedAgent) (id : String)
    (h : repoGet l id = none) : ∀ so ∈ l, so.id ≠ id := by
  induction l with
  | nil => intro so hso; simp at hso
  | cons a rest ih =>
      intro so hso
      simp only [repoGet] at h
      by_cases ha : (a.id == id) = true
      · rw [if_pos ha] at h
        exact absurd h (by simp)
      · rw [if_neg ha] at h
        rcases List.mem_cons.mp hso with rfl | hmem
        · simpa using ha
        · exact ih h so hmem

/-- `C8`: on an existing agent, `RunAction` maps `restart` to a healthy
status, `isolate` to offline, and `upgrade` to healthy together with a
patch bump of a three-part dotted numeric version (`"1.2.3"` becomes
`"1.2.4"`, a malformed version resets to the fixed fallback `"1.0.1"`);
every action stamps `lastSeen` with the current time, both in the response
and in the stored record, and an action on a nonexistent agent id answers
`AgentNotFound` and leaves the state untouched. -/
theorem runAction_action_mapping
    (st : SystemState) (id : String) (now : Int) (so : SavedAgent)
    (hget : repoGet st.agents id = some so)
    (id2 : String) (act2 : XdrAction) (now2 : Int)
    (hget2 : repoGet st.agents id2 = none) :
    (runAction st id .restart now).1 =
      .ok { toXdrAgent so with status := .healthy, lastSeen := some now } ∧
    (runAction st id .isolate now).1 =
      .ok { toXdrAgent so with status := .offline, lastSeen := some now } ∧
    (runAction st id .upgrade now).1 =
      .ok { toXdrAgent so with
            status := .healthy
            lastSeen := some now
            version := bumpVersion so.attributes.version } ∧
    repoGet (runAction st id .restart now).2.agents id =
      some ⟨so.id, { so.attributes with status := .healthy, lastSeen := some now }⟩ ∧
    repoGet (runAction st id .isolate now).2.agents id =
      some ⟨so.id, { so.attributes with status := .offline, lastSeen := some now }⟩ ∧
    repoGet (runAction st id .upgrade now).2.agents id =
      some ⟨so.id, { so.attributes with
            status := .healthy
            lastSeen := some now
            version := bumpVersion so.attributes.version }⟩ ∧
    bumpVersion "1.2.3" = "1.2.4" ∧
    bumpVersion "abc" = "1.0.1" ∧
    runAction st id2 act2 now2 = (.agentNotFound, st) := by
  refine ⟨?_, ?_, ?_, ?_, ?_, ?_, by decide, by decide, ?_⟩
  · simp [runAction, hget, actionToStatusMap, applyPartial, toXdrAgent]
  · simp [runAction, hget, actionToStatusMap, applyPartial, toXdrAgent]
  · simp [runAction, hget, actionToStatusMap, applyPartial, toXdrAgent]
  · simp only [runAction, hget]
    rw [repoGet_repoUpdate st.agents id _ so hget]
    simp [applyPartial, actionToStatusMap]
  · simp only [runAction, hget]
    rw [repoGet_repoUpdate st.agents id _ so hget]
    simp [applyPartial, actionToStatusMap]
  · simp only [runAction, hget]
    rw [repoGet_repoUpdate st.agents id _ so hget]
    simp [applyPartial, actionToStatusMap]
  · simp [runAction, hget2]

/-- `C8` witness: evaluated on a fleet holding agent `A1` at version
`1.2.3`, agent `B1` at the malformed version `abc`, and no agent `AX`. -/
theorem runAction_action_mapping_witness :
    (runAction cSt8 "A1" .restart 50).1 =
      .ok ⟨"A1", "h1", "default-endpoint", .healthy, some 50, [], "1.2.3"⟩ ∧
    (runAction cSt8 "A1" .isolate 50).1 =
      .ok ⟨"A1", "h1", "default-endpoint", .offline, some 50, [], "1.2.3"⟩ ∧
    (runAction cSt8 "A1" .upgrade 50).1 =
      .ok ⟨"A1", "h1", "default-endpoint", .healthy, some 50, [], "1.2.4"⟩ ∧
    repoGet (runAction cSt8 "A1" .restart 50).2.agents "A1" =
      some ⟨"A1", ⟨"h1", "default-endpoint", .healthy, some 50, [], "1.2.3"⟩⟩ ∧
    repoGet (runAction cSt8 "A1" .isolate 50).2.agents "A1" =
      some ⟨"A1", ⟨"h1", "default-endpoint", .offline, some 50, [], "1.2.3"⟩⟩ ∧
    repoGet (runAction cSt8 "A1" .upgrade 50).2.agents "A1" =
      some ⟨"A1", ⟨"h1", "default-endpoint", .healthy, some 50, [], "1.2.4"⟩⟩ ∧
    bumpVersion "1.2.3" = "1.2.4" ∧
    bumpVersion "abc" = "1.0.1" ∧
    runAction cSt8 "AX" .upgrade 50 = (.agentNotFound, cSt8) :=
  runAction_action_mapping cSt8 "A1" 50
    ⟨"A1", ⟨"h1", "default-endpoint", .healthy, some 0, [], "1.2.3"⟩⟩
    (by decide) "AX" .upgrade 50 (by decide)

/-- `C4`: an enroll call presenting a pending token bound to one policy
together with a payload declaring a different policy fails with the
policy-mismatch error and leaves the whole state (agents included)
untouched; no membership of the declared policy in the catalog is
assumed, because the binding check precedes the catalog check. -/
theorem enroll_policy_mismatch
    (st : SystemState) (tok : String) (r : EnrollmentTokenRecord)
    (payload : ControlPlaneEnrollRequest) (now : Int)
    (hfind : findToken st tok = some r)
    (hpending : r.consumedAt = none)
    (hne : r.policyId ≠ payload.policy_id) :
    enroll st (some tok) payload now = (.res .policyMismatch, st) := by
  simp [enroll, enrollF, enrollValidate, hfind, hpending, hne]

/-- `C4` witness: the pending token of `cSt` is bound to
`default-endpoint` while `cPayloadQ` declares `high-security-linux` - a
policy that does exist in the catalog. -/
theorem enroll_policy_mismatch_witness :
    enroll cSt (some "T") cPayloadQ 5 = (.res .policyMismatch, cSt) :=
  enroll_policy_mismatch cSt "T" cTokenRec cPayloadQ 5 (by decide) (by decide) (by decide)

/-- `C6`: `ListAgents` projects each stored record through the derived
status: a raw `unseen` is reported as-is; any other raw status is reported
as `offline` once `now - lastSeen` reaches the stale threshold and
unchanged below it (and unchanged when the stored `lastSeen` does not
parse); the listing returns the store exactly as it found it. -/
theorem listAgents_staleness_projection
    (st : SystemState) (now : Int) (so so3 : SavedAgent) (ms : Int)
    (hmem : so ∈ st.agents) (hms : so.attributes.lastSeen = some ms)
    (hmem3 : so3 ∈ st.agents) (hnone3 : so3.attributes.lastSeen = none)
    (hstat3 : so3.attributes.status ≠ .unseen) :
    (listAgents st now).2 = st ∧
    listAgentsView so now ∈ (listAgents st now).1.1 ∧
    (so.attributes.status = .unseen → (listAgentsView so now).status = .unseen) ∧
    (so.attributes.status ≠ .unseen → now - ms ≥ STALE_AGENT_THRESHOLD_MS →
      (listAgentsView so now).status = .offline) ∧
    (so.attributes.status ≠ .unseen → now - ms < STALE_AGENT_THRESHOLD_MS →
      (listAgentsView so now).status = so.attributes.status) ∧
    listAgentsView so3 now ∈ (listAgents st now).1.1 ∧
    (listAgentsView so3 now).status = so3.attributes.status := by
  refine ⟨rfl, List.mem_map_of_mem _ hmem, ?_, ?_, ?_,
    List.mem_map_of_mem _ hmem3, ?_⟩
  · intro h
    simp [listAgentsView, deriveAgentStatus, toXdrAgent, h]
  · intro h1 h2
    simp [listAgentsView, deriveAgentStatus, toXdrAgent, hms, h1, h2]
  · intro h1 h2
    simp [listAgentsView, deriveAgentStatus, toXdrAgent, hms, h1, not_le.mpr h2]
  · simp [listAgentsView, deriveAgentStatus, toXdrAgent, hnone3, hstat3]

/-- `C6` witness: in `cSt6` at time 300001, the healthy agent last seen
at 0 (300001 ms ago, past the 300000 ms threshold) and the degraded agent
with an unparseable `lastSeen`. -/
theorem listAgents_staleness_projection_witness :
    (listAgents cSt6 300001).2 = cSt6 ∧
    listAgentsView ⟨"A1", ⟨"h1", "default-endpoint", .healthy, some 0, [], "1.0.0"⟩⟩ 300001 ∈
      (listAgents cSt6 300001).1.1 ∧
    ((⟨"A1", ⟨"h1", "default-endpoint", .healthy, some 0, [], "1.0.0"⟩⟩ :
        SavedAgent).attributes.status = .unseen →
      (listAgentsView ⟨"A1", ⟨"h1", "default-endpoint", .healthy, some 0, [], "1.0.0"⟩⟩
        300001).status = .unseen) ∧
    ((⟨"A1", ⟨"h1", "default-endpoint", .healthy, some 0, [], "1.0.0"⟩⟩ :
        SavedAgent).attributes.status ≠ .unseen →
      300001 - 0 ≥ STALE_AGENT_THRESHOLD_MS →
      (listAgentsView ⟨"A1", ⟨"h1", "default-endpoint", .healthy, some 0, [], "1.0.0"⟩⟩
        300001).status = .offline) ∧
    ((⟨"A1", ⟨"h1", "default-endpoint", .healthy, some 0, [], "1.0.0"⟩⟩ :
        SavedAgent).attributes.status ≠ .unseen →
      300001 - 0 < STALE_AGENT_THRESHOLD_MS →
      (listAgentsView ⟨"A1", ⟨"h1", "default-endpoint", .healthy, some 0, [], "1.0.0"⟩⟩
        300001).status =
        (⟨"A1", ⟨"h1", "default-endpoint", .healthy, some 0, [], "1.0.0"⟩⟩ :
          SavedAgent).attributes.status) ∧
    listAgentsView ⟨"A2", ⟨"h2", "default-endpoint", .degraded, none, [], "1.0.0"⟩⟩ 300001 ∈
      (listAgents cSt6 300001).1.1 ∧
    (listAgentsView ⟨"A2", ⟨"h2", "default-endpoint", .degraded, none, [], "1.0.0"⟩⟩
      300001).status =
      (⟨"A2", ⟨"h2", "default-endpoint", .degraded, none, [], "1.0.0"⟩⟩ :
        SavedAgent).attributes.status :=
  listAgents_staleness_projection cSt6 300001
    ⟨"A1", ⟨"h1", "default-endpoint", .healthy, some 0, [], "1.0.0"⟩⟩
    ⟨"A2", ⟨"h2", "default-endpoint", .degraded, none, [], "1.0.0"⟩⟩
    0 (by decide) (by decide) (by decide) (by decide) (by decide)

theorem mem_removeFirstPolicy (l : List XdrPolicy) (pid : String) (q : XdrPolicy)
    (hq : q ∈ l) (hne : q.id ≠ pid) : q ∈ removeFirstPolicy l pid := by
  induction l with
  | nil => simp at hq
  | cons p rest ih =>
      by_cases hp : (p.id == pid) = true
      · simp only [removeFirstPolicy, if_pos hp]
        rcases List.mem_cons.mp hq with rfl | hmem
        · exact absurd (by simpa using hp) hne
        · exact hmem
      · simp only [removeFirstPolicy, if_neg hp]
        rcases List.mem_cons.mp hq with rfl | hmem
        · exact List.mem_cons_self _ _
        · exact List.mem_cons_of_mem _ (ih hmem)

theorem removeFirstPolicy_all_ne (l : List XdrPolicy) (pid : String)
    (hnd : (l.map XdrPolicy.id).Nodup) :
    (removeFirstPolicy l pid).all (fun p => p.id != pid) = true := by
  induction l with
  | nil => simp [removeFirstPolicy]
  | cons p rest ih =>
      simp only [List.map_cons, List.nodup_cons] at hnd
      by_cases hp : (p.id == pid) = true
      · simp only [removeFirstPolicy, if_pos hp]
        have hpid : p.id = pid := by simpa using hp
        rw [List.all_eq_true]
        intro q hq
        simp only [bne_iff_ne, ne_eq, decide_eq_true_eq]
        intro hqe
        apply hnd.1
        rw [hpid, ← hqe]
        exact List.mem_map_of_mem XdrPolicy.id hq
      · simp only [removeFirstPolicy, if_neg hp, List.all_cons]
        rw [ih hnd.2]
        simpa using hp

/-- `C9`: while the catalog contains policy `pid` and at least one agent
record references it, `DeletePolicy pid` answers the in-use error and
changes nothing; when no agent references it, the policy is removed from
the catalog (every surviving entry has a different id, other policies
survive) and the fleet and token stores are untouched.  The referencing
check reads the agent store of the state being acted on - the same `st`
in which any interleaved enrollment would have landed. -/
theorem deletePolicy_in_use_guard
    (st : SystemState) (pid : String) (q : XdrPolicy)
    (hin : policyExists st.policies pid = true)
    (hnd : (st.policies.map XdrPolicy.id).Nodup)
    (hq : q ∈ st.policies) (hqne : q.id ≠ pid) :
    (st.agents.any (fun so => so.attributes.policyId == pid) = true →
      deletePolicy st pid = (.policyInUse, st)) ∧
    (st.agents.any (fun so => so.attributes.policyId == pid) = false →
      (deletePolicy st pid).1 = .deleted pid ∧
      (deletePolicy st pid).2.policies.all (fun p => p.id != pid) = true ∧
      q ∈ (deletePolicy st pid).2.policies ∧
      (deletePolicy st pid).2.agents = st.agents ∧
      (deletePolicy st pid).2.enrollmentTokens = st.enrollmentTokens) := by
  constructor
  · intro hany
    simp [deletePolicy, hin, hany]
  · intro hany
    refine ⟨?_, ?_, ?_, ?_, ?_⟩
    · simp [deletePolicy, hin, hany]
    · simp only [deletePolicy, hin, hany]
      simpa using removeFirstPolicy_all_ne st.policies pid hnd
    · simp only [deletePolicy, hin, hany]
      simpa using mem_removeFirstPolicy st.policies pid q hq hqne
    · simp [deletePolicy, hin, hany]
    · simp [deletePolicy, hin, hany]

/-- `C9` witness: in `cSt7` the single agent references
`default-endpoint`, so deleting `high-security-linux` succeeds while the
in-use branch is instantiated vacuously. -/
theorem deletePolicy_in_use_guard_witness :
    (cSt7.agents.any (fun so => so.attributes.policyId == "high-security-linux") = true →
      deletePolicy cSt7 "high-security-linux" = (.policyInUse, cSt7)) ∧
    (cSt7.agents.any (fun so => so.attributes.policyId == "high-security-linux") = false →
      (deletePolicy cSt7 "high-security-linux").1 = .deleted "high-security-linux" ∧
      (deletePolicy cSt7 "high-security-linux").2.policies.all
        (fun p => p.id != "high-security-linux") = true ∧
      (⟨"default-endpoint", "Default Endpoint Policy",
          "Baseline telemetry and malware prevention.",
          true, true, false, false, .standard⟩ : XdrPolicy) ∈
        (deletePolicy cSt7 "high-security-linux").2.policies ∧
      (deletePolicy cSt7 "high-security-linux").2.agents = cSt7.agents ∧
      (deletePolicy cSt7 "high-security-linux").2.enrollmentTokens =
        cSt7.enrollmentTokens) :=
  deletePolicy_in_use_guard cSt7 "high-security-linux"
    ⟨"default-endpoint", "Default Endpoint Policy",
      "Baseline telemetry and malware prevention.",
      true, true, false, false, .standard⟩
    (by decide) (by decide) (by decide) (by decide)

theorem repoGet_none_of_forall (l : List SavedAgent) (x : String)
    (h : ∀ so ∈ l, so.id ≠ x) : repoGet l x = none := by
  induction l with
  | nil => rfl
  | cons a rest ih =>
      have ha : ¬ (a.id == x) = true := by
        simpa using h a (List.mem_cons_self _ _)
      simp only [repoGet, if_neg ha]
      exact ih (fun so hso => h so (List.mem_cons_of_mem _ hso))

theorem repoGet_append_none (l1 l2 : List SavedAgent) (x : String)
    (h : repoGet l1 x = none) : repoGet (l1 ++ l2) x = repoGet l2 x := by
  induction l1 with
  | nil => rfl
  | cons a rest ih =>
      simp only [repoGet] at h
      by_cases ha : (a.id == x) = true
      · rw [if_pos ha] at h; exact absurd h (by simp)
      · rw [if_neg ha] at h
        simp only [List.cons_append, repoGet, if_neg ha]
        exact ih h

theorem repoGet_repoDelete_self (l : List SavedAgent) (x : String) :
    repoGet (repoDelete l x) x = none := by
  apply repoGet_none_of_forall
  intro so hso
  have := (List.mem_filter.mp hso).2
  simpa using this

theorem repoGet_repoDelete_none (l : List SavedAgent) (x aid : String)
    (h : repoGet l aid = none) : repoGet (repoDelete l x) aid = none := by
  apply repoGet_none_of_forall
  intro so hso
  exact repoGet_none_forall l aid h so (List.mem_filter.mp hso).1

theorem mem_of_findPlaceholder (l : List SavedAgent) (pid : String) (ph : SavedAgent)
    (h : findPlaceholder l pid = some ph) : ph ∈ l := by
  induction l with
  | nil => exact absurd h (by simp [findPlaceholder])
  | cons a rest ih =>
      simp only [findPlaceholder] at h
      by_cases ha : placeholderMatch pid a = true
      · rw [if_pos ha] at h
        injection h with h
        exact h ▸ List.mem_cons_self _ _
      · rw [if_neg ha] at h
        exact List.mem_cons_of_mem _ (ih h)

/-- Shared core of the promotion path: when validation passes, no record
carries the live agent id, and the placeholder search succeeds, the enroll
call succeeds, the placeholder id stops resolving, and the live id
resolves to a record built from the payload. -/
theorem enroll_promotes
    (st : SystemState) (tok : String) (payload : ControlPlaneEnrollRequest) (now : Int)
    (ph : SavedAgent)
    (hval : enrollValidate st tok payload = none)
    (hget : repoGet st.agents payload.agent_id = none)
    (hph : findPlaceholder st.agents payload.policy_id = some ph) :
    (enroll st (some tok) payload now).1 = .res (.ok payload.agent_id) ∧
    repoGet (enroll st (some tok) payload now).2.agents ph.id = none ∧
    repoGet (enroll st (some tok) payload now).2.agents payload.agent_id =
      some ⟨payload.agent_id, enrollAttrs payload now⟩ := by
  have hwrites : enrollAgentWrites noFail st payload now =
      (true,
        SystemState.mk st.policies st.enrollmentTokens
          (repoCreate (repoDelete st.agents ph.id) payload.agent_id
            (enrollAttrs payload now))) := by
    simp [enrollAgentWrites, noFail, hget, hph]
  have hidne : ph.id ≠ payload.agent_id :=
    repoGet_none_forall st.agents payload.agent_id hget ph
      (mem_of_findPlaceholder st.agents payload.policy_id ph hph)
  refine ⟨?_, ?_, ?_⟩
  · simp [enroll, enrollF, hval, hwrites]
  · simp only [enroll, enrollF, hval, hwrites, consumeToken]
    rw [repoCreate, repoGet_append_none _ _ _ (repoGet_repoDelete_self st.agents ph.id)]
    simp [repoGet, Ne.symm hidne]
  · simp only [enroll, enrollF, hval, hwrites, consumeToken]
    rw [repoCreate,
      repoGet_append_none _ _ _ (repoGet_repoDelete_none st.agents ph.id _ hget)]
    simp [repoGet]

/-- `C5`: a successful enroll under agent id X, when no record with id X
exists but a placeholder for the token's policy does, replaces the
placeholder: the old placeholder id no longer resolves, and id X resolves
to a record built from the live payload, whose status is healthy and
whose `lastSeen` is the enrollment time. -/
theorem enroll_placeholder_promotion
    (st : SystemState) (tok : String) (payload : ControlPlaneEnrollRequest) (now : Int)
    (ph : SavedAgent)
    (hval : enrollValidate st tok payload = none)
    (hget : repoGet st.agents payload.agent_id = none)
    (hph : findPlaceholder st.agents payload.policy_id = some ph) :
    (enroll st (some tok) payload now).1 = .res (.ok payload.agent_id) ∧
    repoGet (enroll st (some tok) payload now).2.agents ph.id = none ∧
    repoGet (enroll st (some tok) payload now).2.agents payload.agent_id =
      some ⟨payload.agent_id, enrollAttrs payload now⟩ ∧
    (enrollAttrs payload now).status = .healthy ∧
    (enrollAttrs payload now).lastSeen = some now :=
  have core := enroll_promotes st tok payload now ph hval hget hph
  ⟨core.1, core.2.1, core.2.2, rfl, rfl⟩

/-- `C5` witness: in `cStPh`, payload `cPayload1` (agent id `A1`) claims
the `unknown`-hostname placeholder `ph-1` of policy `default-endpoint`. -/
theorem enroll_placeholder_promotion_witness :
    (enroll cStPh (some "T") cPayload1 5).1 = .res (.ok "A1") ∧
    repoGet (enroll cStPh (some "T") cPayload1 5).2.agents "ph-1" = none ∧
    repoGet (enroll cStPh (some "T") cPayload1 5).2.agents "A1" =
      some ⟨"A1", enrollAttrs cPayload1 5⟩ ∧
    (enrollAttrs cPayload1 5).status = .healthy ∧
    (enrollAttrs cPayload1 5).lastSeen = some 5 :=
  enroll_placeholder_promotion cStPh "T" cPayload1 5
    ⟨"ph-1", ⟨"unknown", "default-endpoint", .unseen, some 0, [], "1.0.0"⟩⟩
    (by decide) (by decide) (by decide)

/-- `C10`: the promotion search accepts a record exactly when its status
is `unseen`, its hostname is `unknown` or `localhost`, and its policy
matches the payload's; consequently an unseen record named `localhost` is
also claimed and deleted by an enrolling agent, as witnessed by the
behavioural conjuncts for a `localhost` placeholder. -/
theorem placeholder_predicate_includes_localhost
    (st : SystemState) (tok : String) (payload : ControlPlaneEnrollRequest) (now : Int)
    (ph : SavedAgent) (pid2 : String) (so2 : SavedAgent)
    (hval : enrollValidate st tok payload = none)
    (hget : repoGet st.agents payload.agent_id = none)
    (hph : findPlaceholder st.agents payload.policy_id = some ph)
    (_hname : ph.attributes.name = "localhost") :
    (placeholderMatch pid2 so2 = true ↔
      (so2.attributes.status = .unseen ∧
        (so2.attributes.name = "unknown" ∨ so2.attributes.name = "localhost") ∧
        so2.attributes.policyId = pid2)) ∧
    (enroll st (some tok) payload now).1 = .res (.ok payload.agent_id) ∧
    repoGet (enroll st (some tok) payload now).2.agents ph.id = none := by
  have core := enroll_promotes st tok payload now ph hval hget hph
  refine ⟨?_, core.1, core.2.1⟩
  simp only [placeholderMatch, isUnknownUnseenPlaceholder, toXdrAgent,
    Bool.and_eq_true, Bool.or_eq_true, beq_iff_eq]
  tauto

/-- `C10` witness: in `cStLh` the unseen record `ph-2` is named
`localhost`, and enrolling `A1` under the matching token claims and
deletes it; the predicate characterisation is instantiated at `ph-2`
itself. -/
theorem placeholder_predicate_includes_localhost_witness :
    (placeholderMatch "default-endpoint"
        ⟨"ph-2", ⟨"localhost", "default-endpoint", .unseen, some 0, [], "1.0.0"⟩⟩ = true ↔
      ((⟨"ph-2", ⟨"localhost", "default-endpoint", .unseen, some 0, [], "1.0.0"⟩⟩ :
          SavedAgent).attributes.status = .unseen ∧
        ((⟨"ph-2", ⟨"localhost", "default-endpoint", .unseen, some 0, [], "1.0.0"⟩⟩ :
            SavedAgent).attributes.name = "unknown" ∨
          (⟨"ph-2", ⟨"localhost", "default-endpoint", .unseen, some 0, [], "1.0.0"⟩⟩ :
            SavedAgent).attributes.name = "localhost") ∧
        (⟨"ph-2", ⟨"localhost", "default-endpoint", .unseen, some 0, [], "1.0.0"⟩⟩ :
          SavedAgent).attributes.policyId = "default-endpoint")) ∧
    (enroll cStLh (some "T") cPayload1 5).1 = .res (.ok "A1") ∧
    repoGet (enroll cStLh (some "T") cPayload1 5).2.agents "ph-2" = none :=
  placeholder_predicate_includes_localhost cStLh "T" cPayload1 5
    ⟨"ph-2", ⟨"localhost", "default-endpoint", .unseen, some 0, [], "1.0.0"⟩⟩
    "default-endpoint"
    ⟨"ph-2", ⟨"localhost", "default-endpoint", .unseen, some 0, [], "1.0.0"⟩⟩
    (by decide) (by decide) (by decide) (by decide)

/-- The repository phase only ever rewrites the `agents` component: the
token store and the catalog are untouched by it, whatever succeeds or
throws. -/
theorem enrollAgentWrites_preserves (fail : FailSpec) (st : SystemState)
    (payload : ControlPlaneEnrollRequest) (now : Int) :
    (enrollAgentWrites fail st payload now).2.enrollmentTokens = st.enrollmentTokens ∧
    (enrollAgentWrites fail st payload now).2.policies = st.policies := by
  unfold enrollAgentWrites
  dsimp only
  split
  · exact ⟨rfl, rfl⟩
  · split
    · split
      · exact ⟨rfl, rfl⟩
      · exact ⟨rfl, rfl⟩
    · split
      · exact ⟨rfl, rfl⟩
      · split
        · split
          · exact ⟨rfl, rfl⟩
          · split
            · exact ⟨rfl, rfl⟩
            · exact ⟨rfl, rfl⟩
        · split
          · exact ⟨rfl, rfl⟩
          · exact ⟨rfl, rfl⟩

/-- With no repository failure injected, the repository phase always
reaches its final write. -/
theorem enrollAgentWrites_noFail_fst (st : SystemState)
    (payload : ControlPlaneEnrollRequest) (now : Int) :
    (enrollAgentWrites noFail st payload now).1 = true := by
  unfold enrollAgentWrites noFail
  dsimp only
  repeat' split
  all_goals simp_all

/-- Validation reads only the token store and the catalog. -/
theorem enrollValidate_congr (st1 st2 : SystemState) (tok : String)
    (payload : ControlPlaneEnrollRequest)
    (h1 : st1.enrollmentTokens = st2.enrollmentTokens)
    (h2 : st1.policies = st2.policies) :
    enrollValidate st1 tok payload = enrollValidate st2 tok payload := by
  simp [enrollValidate, findToken, policyExists, h1, h2]

/-- `C3`: when any repository write of the enroll transaction throws, the
call surfaces the store failure, the token store is exactly as before (in
particular the presented token is still pending), and retrying the same
enroll against the resulting state with a healthy store succeeds. -/
theorem enroll_store_failure_token_pending
    (fail : FailSpec) (st st1 : SystemState) (tok : String)
    (payload : ControlPlaneEnrollRequest) (now now2 : Int)
    (hval : enrollValidate st tok payload = none)
    (hw : enrollAgentWrites fail st payload now = (false, st1)) :
    enrollF fail st (some tok) payload now = (.storeFailure, st1) ∧
    st1.enrollmentTokens = st.enrollmentTokens ∧
    st1.policies = st.policies ∧
    (enrollF noFail st1 (some tok) payload now2).1 = .res (.ok payload.agent_id) := by
  have hpres := enrollAgentWrites_preserves fail st payload now
  rw [hw] at hpres
  have hval1 : enrollValidate st1 tok payload = none := by
    rw [enrollValidate_congr st1 st tok payload hpres.1 hpres.2]
    exact hval
  refine ⟨by simp [enrollF, hval, hw], hpres.1, hpres.2, ?_⟩
  have hfst := enrollAgentWrites_noFail_fst st1 payload now2
  simp only [enrollF, hval1]
  cases hw2 : enrollAgentWrites noFail st1 payload now2 with
  | mk b s2 =>
      rw [hw2] at hfst
      subst hfst
      rfl

/-- `C3` witness: injecting a failure of the final `repo.create` into the
enrollment of `cPayload1` against `cSt`; the token stays pending and the
retry at time 6 succeeds. -/
theorem enroll_store_failure_token_pending_witness :
    enrollF ⟨false, false, false, false, true⟩ cSt (some "T") cPayload1 5 =
      (.storeFailure, cSt) ∧
    cSt.enrollmentTokens = cSt.enrollmentTokens ∧
    cSt.policies = cSt.policies ∧
    (enrollF noFail cSt (some "T") cPayload1 6).1 = .res (.ok "A1") :=
  enroll_store_failure_token_pending ⟨false, false, false, false, true⟩ cSt cSt "T"
    cPayload1 5 6 (by decide) (by decide)

/-- `C7` counterexample: in `cSt7` every agent references a catalog
policy, yet a heartbeat declaring the nonexistent policy `ghost` is
accepted and leaves agent `A1` pointing at a policy absent from the
catalog - the heartbeat handler never consults the catalog. -/
theorem heartbeat_breaks_referential_integrity :
    refIntegrity cSt7 = true ∧
    policyExists cSt7.policies "ghost" = false ∧
    (heartbeat cSt7 cHbGhost 100).1 = .ok ∧
    refIntegrity (heartbeat cSt7 cHbGhost 100).2 = false := by decide

theorem all_policyRef_repoUpdate (agents : List SavedAgent) (policies : List XdrPolicy)
    (id : String) (part : PartialAgentAttrs)
    (h : agents.all (fun so => policies.any (fun p => p.id == so.attributes.policyId)) = true)
    (hpart : ∀ a : XdrAgentAttributes,
      policies.any (fun p => p.id == a.policyId) = true →
      policies.any (fun p => p.id == (applyPartial part a).policyId) = true) :
    (repoUpdate agents id part).all
      (fun so => policies.any (fun p => p.id == so.attributes.policyId)) = true := by
  rw [List.all_eq_true] at h ⊢
  intro so' hso'
  rw [repoUpdate] at hso'
  rcases List.mem_map.mp hso' with ⟨so, hso, hf⟩
  by_cases hid : (so.id == id) = true
  · rw [if_pos hid] at hf
    subst hf
    exact hpart so.attributes (h so hso)
  · rw [if_neg hid] at hf
    subst hf
    exact h so hso

theorem all_policyRef_filter (agents : List SavedAgent) (policies : List XdrPolicy)
    (q : SavedAgent → Bool)
    (h : agents.all (fun so => policies.any (fun p => p.id == so.attributes.policyId)) = true) :
    (agents.filter q).all
      (fun so => policies.any (fun p => p.id == so.attributes.policyId)) = true := by
  rw [List.all_eq_true] at h ⊢
  intro so hso
  exact h so (List.mem_filter.mp hso).1

theorem all_policyRef_append (agents : List SavedAgent) (policies : List XdrPolicy)
    (new : SavedAgent)
    (h : agents.all (fun so => policies.any (fun p => p.id == so.attributes.policyId)) = true)
    (hnew : policies.any (fun p => p.id == new.attributes.policyId) = true) :
    (agents ++ [new]).all
      (fun so => policies.any (fun p => p.id == so.attributes.policyId)) = true := by
  rw [List.all_eq_true] at h ⊢
  intro so hso
  rcases List.mem_append.mp hso with hmem | hmem
  · exact h so hmem
  · rcases List.mem_singleton.mp hmem with rfl
    exact hnew

theorem refIntegrity_enrollAgentWrites (fail : FailSpec) (st : SystemState)
    (payload : ControlPlaneEnrollRequest) (now : Int)
    (h : refIntegrity st = true)
    (hcat : policyExists st.policies payload.policy_id = true) :
    refIntegrity (enrollAgentWrites fail st payload now).2 = true := by
  have hattrs : st.policies.any
      (fun p => p.id == (enrollAttrs payload now).policyId) = true := hcat
  unfold enrollAgentWrites
  dsimp only
  split
  · exact h
  · split
    · split
      · exact h
      · simp only [refIntegrity] at h ⊢
        exact all_policyRef_repoUpdate st.agents st.policies payload.agent_id _ h
          (fun a _ => hattrs)
    · split
      · exact h
      · split
        · split
          · exact h
          · split
            · simp only [refIntegrity] at h ⊢
              exact all_policyRef_filter st.agents st.policies _ h
            · simp only [refIntegrity, repoDelete, repoCreate] at h ⊢
              exact all_policyRef_append _ st.policies _
                (all_policyRef_filter st.agents st.policies _ h) hattrs
        · split
          · exact h
          · simp only [refIntegrity, repoCreate] at h ⊢
            exact all_policyRef_append _ st.policies _ h hattrs

theorem refIntegrity_enroll (st : SystemState) (h : refIntegrity st = true)
    (bearer : Option String) (payload : ControlPlaneEnrollRequest) (now : Int) :
    refIntegrity (enroll st bearer payload now).2 = true := by
  cases bearer with
  | none => simpa [enroll, enrollF] using h
  | some tok =>
      cases hv : enrollValidate st tok payload with
      | some e => simpa [enroll, enrollF, hv] using h
      | none =>
          have hcat : policyExists st.policies payload.policy_id = true := by
            unfold enrollValidate at hv
            cases hf : findToken st tok with
            | none => rw [hf] at hv; exact absurd hv (by simp)
            | some r =>
                rw [hf] at hv
                by_cases hc : r.consumedAt.isSome
                · simp [hc] at hv
                · by_cases hbq : (r.policyId != payload.policy_id) = true
                  · simp [hc, hbq] at hv
                  · by_cases hp : policyExists st.policies payload.policy_id
                    · exact hp
                    · simp [hc, hbq, hp] at hv
          cases hw : enrollAgentWrites noFail st payload now with
          | mk b st1 =>
              have hb : b = true := by
                have := enrollAgentWrites_noFail_fst st payload now
                rw [hw] at this
                exact this
              subst hb
              have h1 : refIntegrity st1 = true := by
                have := refIntegrity_enrollAgentWrites noFail st payload now h hcat
                rw [hw] at this
                exact this
              simpa [enroll, enrollF, hv, hw, consumeToken, refIntegrity] using h1

/-- `C7` (amended): referential integrity - every agent record's
`policyId` denotes a catalog entry - is preserved by enroll, by
operator-initiated placeholder creation, by remote actions and by policy
deletion unconditionally, and by heartbeat only under the extra premise
that the heartbeat's declared policy exists in the catalog (without that
premise the heartbeat handler breaks the invariant, see the
counterexample). -/
theorem mutating_ops_preserve_referential_integrity
    (st : SystemState) (h : refIntegrity st = true)
    (bearer : Option String) (payload : ControlPlaneEnrollRequest) (nowE : Int)
    (hb : ControlPlaneHeartbeatRequest) (nowH : Int)
    (hhb : policyExists st.policies hb.policy_id = true)
    (req : EnrollAgentRequest) (nowP : Int)
    (aid : String) (act : XdrAction) (nowA : Int)
    (pid : String) :
    refIntegrity (enroll st bearer payload nowE).2 = true ∧
    refIntegrity (heartbeat st hb nowH).2 = true ∧
    refIntegrity (operatorEnroll st req nowP).2 = true ∧
    refIntegrity (runAction st aid act nowA).2 = true ∧
    refIntegrity (deletePolicy st pid).2 = true := by
  refine ⟨refIntegrity_enroll st h bearer payload nowE, ?_, ?_, ?_, ?_⟩
  · cases hg : repoGet st.agents hb.agent_id with
    | none => simpa [heartbeat, hg] using h
    | some so =>
        simp only [heartbeat, hg, refIntegrity] at h ⊢
        exact all_policyRef_repoUpdate st.agents st.policies hb.agent_id _ h
          (fun a _ => hhb)
  · by_cases hp : policyExists st.policies req.policyId = true
    · simp only [operatorEnroll, hp, Bool.not_true, Bool.false_eq_true, if_false,
        refIntegrity, repoCreate] at h ⊢
      exact all_policyRef_append _ st.policies _ h hp
    · have hp' : policyExists st.policies req.policyId = false := by simpa using hp
      simpa [operatorEnroll, hp'] using h
  · cases hg : repoGet st.agents aid with
    | none => simpa [runAction, hg] using h
    | some so =>
        simp only [runAction, hg, refIntegrity] at h ⊢
        exact all_policyRef_repoUpdate st.agents st.policies aid _ h
          (fun a ha => by simpa [applyPartial] using ha)
  · by_cases hp : policyExists st.policies pid = true
    · by_cases hany : st.agents.any (fun so => so.attributes.policyId == pid) = true
      · simpa [deletePolicy, hp, hany] using h
      · have hany' : st.agents.any (fun so => so.attributes.policyId == pid) = false := by
          simpa using hany
        simp only [deletePolicy, hp, hany', Bool.not_true, Bool.false_eq_true, if_false,
          refIntegrity] at h ⊢
        rw [List.all_eq_true] at h ⊢
        intro so hso
        have hne : so.attributes.policyId ≠ pid := by
          intro he
          apply (by simpa using hany' : ∀ x ∈ st.agents, ¬(x.attributes.policyId == pid) = true) so hso
          simp [he]
        rcases (by simpa using h so hso : ∃ p ∈ st.policies, p.id = so.attributes.policyId)
          with ⟨p, hpmem, hpeq⟩
        have : p ∈ removeFirstPolicy st.policies pid :=
          mem_removeFirstPolicy st.policies pid p hpmem (by rw [hpeq]; exact hne)
        simp only [List.any_eq_true]
        exact ⟨p, this, by simp [hpeq]⟩
    · have hp' : policyExists st.policies pid = false := by simpa using hp
      simpa [deletePolicy, hp'] using h

/-- `C7` witness (of the amended statement): the state `cSt7`, an enroll
with no bearer token, a well-formed heartbeat, a placeholder creation, a
restart action, and the deletion of the unreferenced policy. -/
theorem mutating_ops_preserve_referential_integrity_witness :
    refIntegrity (enroll cSt7 none cPayload1 5).2 = true ∧
    refIntegrity (heartbeat cSt7 cHbOk 6).2 = true ∧
    refIntegrity (operatorEnroll cSt7 ⟨"hx", "default-endpoint", none⟩ 7).2 = true ∧
    refIntegrity (runAction cSt7 "A1" .restart 8).2 = true ∧
    refIntegrity (deletePolicy cSt7 "high-security-linux").2 = true :=
  mutating_ops_preserve_referential_integrity cSt7 (by decide)
    none cPayload1 5 cHbOk 6 (by decide)
    ⟨"hx", "default-endpoint", none⟩ 7 "A1" .restart 8 "high-security-linux"

/-! Lemmas for the single-use invariant of enrollment tokens. -/

theorem findTokenIn_some_mem (l : List EnrollmentTokenRecord) (tok : String)
    (r : EnrollmentTokenRecord) (h : findTokenIn l tok = some r) :
    r ∈ l ∧ r.token = tok := by
  induction l with
  | nil => exact absurd h (by simp [findTokenIn])
  | cons a rest ih =>
      simp only [findTokenIn] at h
      by_cases ha : (a.token == tok) = true
      · rw [if_pos ha] at h
        injection h with h
        subst h
        exact ⟨List.mem_cons_self _ _, by simpa using ha⟩
      · rw [if_neg ha] at h
        exact ⟨List.mem_cons_of_mem _ (ih h).1, (ih h).2⟩

theorem findTokenIn_markConsumed_self (l : List EnrollmentTokenRecord) (tok : String)
    (now : Int) (aId host : String) (r : EnrollmentTokenRecord)
    (h : findTokenIn l tok = some r) :
    findTokenIn (markConsumed l tok now aId host) tok =
      some { r with
        consumedAt := some now
        consumedAgentId := some aId
        consumedHostname := some host } := by
  induction l with
  | nil => exact absurd h (by simp [findTokenIn])
  | cons a rest ih =>
      simp only [findTokenIn] at h
      by_cases ha : (a.token == tok) = true
      · rw [if_pos ha] at h
        injection h with h
        subst h
        simp [markConsumed, findTokenIn, ha]
      · rw [if_neg ha] at h
        simp only [markConsumed, if_neg ha, findTokenIn]
        exact ih h

theorem findTokenIn_markConsumed_ne (l : List EnrollmentTokenRecord) (tk tok : String)
    (now : Int) (aId host : String) (hne : tk ≠ tok) :
    findTokenIn (markConsumed l tk now aId host) tok = findTokenIn l tok := by
  induction l with
  | nil => rfl
  | cons a rest ih =>
      by_cases ha : (a.token == tk) = true
      · have hatk : a.token = tk := by simpa using ha
        have hat : (a.token == tok) = false := by simp [hatk, hne]
        simp only [markConsumed, if_pos ha, findTokenIn]
        rw [if_neg (by simp [hat]), if_neg (by simp [hat])]
      · simp only [markConsumed, if_neg ha, findTokenIn]
        by_cases hat : (a.token == tok) = true
        · rw [if_pos hat, if_pos hat]
        · rw [if_neg hat, if_neg hat]
          exact ih

theorem enrollValidate_no_ok (st : SystemState) (tok : String)
    (payload : ControlPlaneEnrollRequest) (s : String) :
    enrollValidate st tok payload ≠ some (.ok s) := by
  unfold enrollValidate
  cases findToken st tok with
  | none => simp
  | some r =>
      by_cases h1 : r.consumedAt.isSome <;>
        by_cases h2 : (r.policyId != payload.policy_id) = true <;>
          by_cases h3 : (!policyExists st.policies payload.policy_id) = true <;>
            simp [h1, h2, h3]

theorem enrollValidate_none_inv (st : SystemState) (tok : String)
    (payload : ControlPlaneEnrollRequest)
    (h : enrollValidate st tok payload = none) :
    ∃ r, findToken st tok = some r ∧ r.consumedAt = none := by
  unfold enrollValidate at h
  cases hf : findToken st tok with
  | none => rw [hf] at h; exact absurd h (by simp)
  | some r =>
      rw [hf] at h
      refine ⟨r, rfl, ?_⟩
      by_cases hc : r.consumedAt.isSome
      · simp [hc] at h
      · exact Option.not_isSome_iff_eq_none.mp hc

/-- A successful enroll leaves the presented token's record consumed, with
the enrolling agent id, hostname and time. -/
theorem enroll_ok_marks_consumed (st st1 : SystemState) (tok : String)
    (payload : ControlPlaneEnrollRequest) (now : Int)
    (h : enroll st (some tok) payload now = (.res (.ok payload.agent_id), st1)) :
    tokenConsumedWith st1 tok payload.agent_id payload.hostname now = true := by
  simp only [enroll, enrollF] at h
  cases hv : enrollValidate st tok payload with
  | some e =>
      rw [hv] at h
      simp only [Prod.mk.injEq] at h
      have he : e = .ok payload.agent_id := by
        have h1 := h.1
        injection h1 with he2
      exact absurd (he ▸ hv) (enrollValidate_no_ok st tok payload payload.agent_id)
  | none =>
      rw [hv] at h
      cases hw : enrollAgentWrites noFail st payload now with
      | mk b st2 =>
          have hb : b = true := by
            have hb1 := enrollAgentWrites_noFail_fst st payload now
            rw [hw] at hb1
            exact hb1
          subst hb
          rw [hw] at h
          simp only [Prod.mk.injEq] at h
          have hst1 : st1 = consumeToken st2 tok payload now := h.2.symm
          subst hst1
          have hpres := (enrollAgentWrites_preserves noFail st payload now).1
          rw [hw] at hpres
          rcases enrollValidate_none_inv st tok payload hv with ⟨r0, hr0, _⟩
          have hr2 : findTokenIn st2.enrollmentTokens tok = some r0 := by
            rw [hpres]
            exact hr0
          simp only [tokenConsumedWith, findToken, consumeToken]
          rw [findTokenIn_markConsumed_self st2.enrollmentTokens tok now
            payload.agent_id payload.hostname r0 hr2]
          simp

/-- Consumption of a token is permanent across any single further
operation, provided newly issued token strings are fresh. -/
theorem tokenConsumedWith_applyOp (st : SystemState) (op : Op) (tok aId host : String)
    (t : Int) (hfresh : opFresh st op = true)
    (h : tokenConsumedWith st tok aId host t = true) :
    tokenConsumedWith (applyOp st op) tok aId host t = true := by
  rcases hf : findToken st tok with _ | r
  · rw [tokenConsumedWith, hf] at h
    exact absurd h (by simp)
  cases op with
  | issueToken pid tk nw =>
      by_cases hp : policyExists st.policies pid = true
      · have hmem := findTokenIn_some_mem st.enrollmentTokens tok r hf
        have htkne : (tk == tok) = false := by
          simp only [opFresh] at hfresh
          have hall : ∀ x ∈ st.enrollmentTokens, ¬(x.token == tk) = true := by
            simpa using hfresh
          by_cases he : tk = tok
          · exact absurd (by simp [hmem.2, he]) (hall r hmem.1)
          · simp [he]
        simp only [applyOp, issueToken, hp, Bool.not_true, Bool.false_eq_true, if_false]
        simp only [tokenConsumedWith, findToken] at h ⊢
        simp only [findTokenIn, if_neg (by simp [htkne] :
          ¬ ((⟨tk, pid, nw, none, none, none⟩ : EnrollmentTokenRecord).token == tok) = true)]
        exact h
      · have hp' : policyExists st.policies pid = false := by simpa using hp
        simpa [applyOp, issueToken, hp'] using h
  | enroll bearer payload nw =>
      cases bearer with
      | none => simpa [applyOp, enroll, enrollF] using h
      | some tk =>
          cases hv : enrollValidate st tk payload with
          | some e => simpa [applyOp, enroll, enrollF, hv] using h
          | none =>
              rcases enrollValidate_none_inv st tk payload hv with ⟨r0, hr0, hr0p⟩
              have htkne : tk ≠ tok := by
                intro he
                subst he
                rw [hf] at hr0
                injection hr0 with hr0
                subst hr0
                simp [tokenConsumedWith, hf, hr0p] at h
              cases hw : enrollAgentWrites noFail st payload nw with
              | mk b st2 =>
                  have hb : b = true := by
                    have := enrollAgentWrites_noFail_fst st payload nw
                    rw [hw] at this
                    exact this
                  subst hb
                  have hpres := (enrollAgentWrites_preserves noFail st payload nw).1
                  rw [hw] at hpres
                  simp only [applyOp, enroll, enrollF, hv, hw]
                  simp only [tokenConsumedWith, findToken, consumeToken] at h ⊢
                  rw [findTokenIn_markConsumed_ne st2.enrollmentTokens tk tok nw
                    payload.agent_id payload.hostname htkne, hpres]
                  exact h
  | heartbeat payload nw =>
      have hsame : (heartbeat st payload nw).2.enrollmentTokens = st.enrollmentTokens := by
        cases hg : repoGet st.agents payload.agent_id <;> simp [heartbeat, hg]
      simpa [applyOp, tokenConsumedWith, findToken, hsame] using h
  | operatorEnroll req nw =>
      have hsame : (operatorEnroll st req nw).2.enrollmentTokens = st.enrollmentTokens := by
        by_cases hp : policyExists st.policies req.policyId = true
        · simp [operatorEnroll, hp]
        · have hp' : policyExists st.policies req.policyId = false := by simpa using hp
          simp [operatorEnroll, hp']
      simpa [applyOp, tokenConsumedWith, findToken, hsame] using h
  | runAction aid act nw =>
      have hsame : (runAction st aid act nw).2.enrollmentTokens = st.enrollmentTokens := by
        cases hg : repoGet st.agents aid <;> simp [runAction, hg]
      simpa [applyOp, tokenConsumedWith, findToken, hsame] using h
  | createPolicy payload nw =>
      simpa [applyOp, createPolicy, tokenConsumedWith, findToken] using h
  | updatePolicy pid payload =>
      have hsame : (updatePolicy st pid payload).2.enrollmentTokens = st.enrollmentTokens := by
        by_cases hp : policyExists st.policies pid = true
        · simp [updatePolicy, hp]
        · have hp' : policyExists st.policies pid = false := by simpa using hp
          simp [updatePolicy, hp']
      simpa [applyOp, tokenConsumedWith, findToken, hsame] using h
  | deletePolicy pid =>
      have hsame : (deletePolicy st pid).2.enrollmentTokens = st.enrollmentTokens := by
        by_cases hp : policyExists st.policies pid = true
        · by_cases hany : st.agents.any (fun so => so.attributes.policyId == pid) = true
          · simp [deletePolicy, hp, hany]
          · have hany' : st.agents.any (fun so => so.attributes.policyId == pid) = false := by
              simpa using hany
            simp [deletePolicy, hp, hany']
        · have hp' : policyExists st.policies pid = false := by simpa using hp
          simp [deletePolicy, hp']
      simpa [applyOp, tokenConsumedWith, findToken, hsame] using h

theorem tokenConsumedWith_applyOps (st : SystemState) (ops : List Op)
    (tok aId host : String) (t : Int)
    (hops : opsFresh st ops = true)
    (h : tokenConsumedWith st tok aId host t = true) :
    tokenConsumedWith (applyOps st ops) tok aId host t = true := by
  induction ops generalizing st with
  | nil => exact h
  | cons op rest ih =>
      simp only [opsFresh, Bool.and_eq_true] at hops
      exact ih (applyOp st op) hops.2 (tokenConsumedWith_applyOp st op tok aId host t hops.1 h)

/-- `C1`: once an enroll call presenting token T has succeeded, then after
any further sequence of operations (token issuance with fresh randomness,
enrollments, heartbeats, placeholder creations, actions, policy CRUD),
every enroll call presenting T - with any payload, at any time - fails
with the token-already-used error and changes nothing, and the token's
status endpoint reports it consumed with the agent id and hostname of the
original successful enrollment. -/
theorem consumed_token_rejects_reuse
    (st st1 : SystemState) (tok : String) (payload : ControlPlaneEnrollRequest)
    (now : Int)
    (h : enroll st (some tok) payload now = (.res (.ok payload.agent_id), st1))
    (ops : List Op) (hops : opsFresh st1 ops = true)
    (payload2 : ControlPlaneEnrollRequest) (now2 : Int) :
    enroll (applyOps st1 ops) (some tok) payload2 now2 =
      (.res .tokenAlreadyUsed, applyOps st1 ops) ∧
    (getTokenStatus (applyOps st1 ops) tok).map
      (fun v => (v.consumed, v.consumedAgentId, v.consumedHostname)) =
      some (true, some payload.agent_id, some payload.hostname) := by
  have h1 := enroll_ok_marks_consumed st st1 tok payload now h
  have h2 := tokenConsumedWith_applyOps st1 ops tok payload.agent_id payload.hostname
    now hops h1
  cases hf : findToken (applyOps st1 ops) tok with
  | none =>
      rw [tokenConsumedWith, hf] at h2
      exact absurd h2 (by simp)
  | some r =>
      rw [tokenConsumedWith, hf] at h2
      simp only [Bool.and_eq_true, beq_iff_eq] at h2
      obtain ⟨⟨hc, ha⟩, hh⟩ := h2
      constructor
      · simp [enroll, enrollF, enrollValidate, hf, hc]
      · simp [getTokenStatus, hf, hc, ha, hh]

/-- `C1` witness: `cPayload1` redeems token `T` at time 5 producing
`cSt1`; after a fresh token issuance and a heartbeat (`cOps`), a second
enroll presenting `T` with a different payload is rejected and the status
endpoint still names `A1`/`h1`. -/
theorem consumed_token_rejects_reuse_witness :
    enroll (applyOps cSt1 cOps) (some "T") cPayload2 9 =
      (.res .tokenAlreadyUsed, applyOps cSt1 cOps) ∧
    (getTokenStatus (applyOps cSt1 cOps) "T").map
      (fun v => (v.consumed, v.consumedAgentId, v.consumedHostname)) =
      some (true, some "A1", some "h1") :=
  consumed_token_rejects_reuse cSt (cSt1) "T" cPayload1 5 (by decide) cOps (by decide)
    cPayload2 9

/-- Sanity of the interleaving model: running one call's two steps
back-to-back is exactly the sequential enroll handler. -/
theorem stepEnrollCall_seq (sys : SystemState) (c : EnrollCall) :
    (let p1 := stepEnrollCall sys c .ready
     let p2 := stepEnrollCall p1.2 c p1.1
     (p2.1, p2.2)) =
    (let r := enrollF noFail sys c.bearer c.payload c.now
     (match r.1 with
      | .res e => CallPhase.responded e
      | .storeFailure => .ready, r.2)) := by
  cases hb : c.bearer with
  | none => simp [stepEnrollCall, enrollF, hb]
  | some tok =>
      cases hv : enrollValidate sys tok c.payload with
      | some e => simp [stepEnrollCall, enrollF, hb, hv]
      | none =>
          cases hw : enrollAgentWrites noFail sys c.payload c.now with
          | mk b st1 =>
              have hb1 : b = true := by
                have hb2 := enrollAgentWrites_noFail_fst sys c.payload c.now
                rw [hw] at hb2
                exact hb2
              subst hb1
              simp [stepEnrollCall, enrollF, hb, hv, hw]

/-- `C2`: the enroll handler checks `consumedAt` before its first `await`
and only sets it after the repository writes, with no lock or
compare-and-swap; interleaving two requests that present the same pending
token `T` at the await boundary (both validate, then both commit) makes
BOTH calls succeed - the second silently overwrites the consumption
record - whereas the same two requests run back-to-back yield one success
and one token-already-used rejection.  This refutes the claimed
exactly-one-success guarantee for concurrent redemption. -/
theorem enroll_concurrent_double_success :
    (runTwo cCall1 cCall2 [false, true, false, true] cSt).ph1 =
      .responded (.ok "A1") ∧
    (runTwo cCall1 cCall2 [false, true, false, true] cSt).ph2 =
      .responded (.ok "A2") ∧
    tokenConsumedWith (runTwo cCall1 cCall2 [false, true, false, true] cSt).sys
      "T" "A2" "h2" 6 = true ∧
    (runTwo cCall1 cCall2 [false, false, true, true] cSt).ph1 =
      .responded (.ok "A1") ∧
    (runTwo cCall1 cCall2 [false, false, true, true] cSt).ph2 =
      .responded .tokenAlreadyUsed := by decide

end XdrManager
